import Mathlib

/-!
Verification development for the osmlayersdownloader plugin core.

The Python sources are shallowly embedded here:
* `src/osm_api.py` — OSM element → GeoJSON feature conversion
  (`OSMAPIHandler.element_to_feature`) and the label-point engine
  (`OSMAPIHandler.create_labels_geojson`);
* `src/svg_exporter.py` — the page layout computed in `SVGExporter.__init__`,
  the projectors `lon_to_x` / `lat_to_y`, and the label-deduplication logic of
  `export_layers_to_svg`;
* `src/frame_builder.py` — `FrameBuilder.create_frame_geometry`.

Numbers are modelled as exact rationals (`ℚ`); Python floats are idealized.
The floating-point value `math.cos(math.radians(lat))` is passed in as an
explicit `latCorrection` parameter wherever the source computes it, since
cosine is the only transcendental operation the sources perform.
Python dictionary access that can raise `KeyError` is modelled with
`Option` / `Except`.
-/

/-- Membership of `needle` as a contiguous subsequence of `hay`; used to model
the Python substring test `needle in hay`. -/
def seqContains (needle hay : List Char) : Bool :=
  match hay with
  | [] => needle.isEmpty
  | _ :: rest => needle.isPrefixOf hay || seqContains needle rest

/-- Python `needle in hay` on strings (substring containment). -/
def strContains (hay needle : String) : Bool :=
  seqContains needle.data hay.data

/-- Python `str.lower()`. -/
def lowerStr (s : String) : String :=
  ⟨s.data.map Char.toLower⟩

/-- Python `str.strip()` (trim whitespace on both ends). -/
def trimStr (s : String) : String :=
  ⟨((s.data.dropWhile Char.isWhitespace).reverse.dropWhile Char.isWhitespace).reverse⟩

/-- A longitude/latitude pair `[lon, lat]` as built by
`[[pt['lon'], pt['lat']] for pt in element['geometry']]`. -/
abbrev Coord := ℚ × ℚ

/-- An OSM tag mapping (`element['tags']`), modelled as an ordered
string-to-string association list; a missing `tags` key is the empty list. -/
abbrev Tags := List (String × String)

/-- Python `tags.get(key)`. -/
def tagGet (tags : Tags) (key : String) : Option String :=
  tags.lookup key

/-- Python `key in tags`. -/
def hasTag (tags : Tags) (key : String) : Bool :=
  (tags.lookup key).isSome

/-- GeoJSON geometry as produced by `osm_api.py`. -/
inductive Geometry where
  | point : Coord → Geometry
  | lineString : List Coord → Geometry
  | polygon : List (List Coord) → Geometry
  | multiPolygon : List (List (List Coord)) → Geometry
deriving DecidableEq, Repr

/-- A GeoJSON feature: geometry plus the `properties` mapping. -/
structure Feature where
  geometry : Geometry
  properties : Tags
deriving DecidableEq, Repr

/-- A relation member dictionary: `type`, optional `geometry`, and the `role`
key, which the source reads with `member['role']` (raising `KeyError` when the
key is absent), hence `Option`. -/
structure Member where
  mtype : String
  geometry : Option (List Coord)
  role : Option String
deriving DecidableEq, Repr

/-- An OSM element as consumed by `element_to_feature`: a node (with optional
`lat`/`lon` keys), a way (with optional embedded `geometry`), or a relation
(with optional `members`).  A missing `tags` key is the empty mapping. -/
inductive OSMElement where
  | node (lon lat : Option ℚ) (tags : Tags)
  | way (geometry : Option (List Coord)) (tags : Tags)
  | relation (members : Option (List Member)) (tags : Tags)
deriving DecidableEq, Repr

/-- Source line 191: `is_road = 'roads' in feature_name or 'trails' in feature_name`. -/
def isRoadFeature (featureName : String) : Bool :=
  strContains featureName "roads" || strContains featureName "trails"

/-- Source lines 186–188: a way is closed when it has more than two coordinate
entries and its first coordinate equals its last (componentwise). -/
def wayIsClosed (coords : List Coord) : Bool :=
  decide (2 < coords.length) && decide (coords.head? = coords.getLast?)

/-- Source lines 200–207: the polygon-promotion test for a closed way. -/
def wayIsArea (coords : List Coord) (tags : Tags) : Bool :=
  wayIsClosed coords &&
    (decide (tagGet tags "area" = some "yes") || hasTag tags "building" ||
      hasTag tags "landuse" || hasTag tags "natural" ||
      hasTag tags "leisure" || hasTag tags "amenity")

/-- Source idiom `if coords[0] != coords[-1]: coords.append(coords[0])`:
close a (nonempty) ring by repeating its first point when needed. -/
def closeRing (r : List Coord) : List Coord :=
  match r.head?, r.getLast? with
  | some a, some b => if a = b then r else r ++ [a]
  | _, _ => r

/-- Source lines 232–245: partition relation members into outer and inner
ring lists, in member order.  Members that are not ways, lack geometry, or
have empty geometry are skipped; a member whose `role` key is absent makes
`member['role']` raise `KeyError`, modelled as `Except.error`.  A role that is
neither `"outer"` nor `"inner"` falls into the outer list. -/
def collectRings : List Member → Except String (List (List Coord) × List (List Coord))
  | [] => .ok ([], [])
  | m :: rest =>
    if m.mtype = "way" then
      match m.geometry with
      | none => collectRings rest
      | some coords =>
        if coords.isEmpty then collectRings rest
        else
          match m.role with
          | none => .error "KeyError: role"
          | some r =>
            match collectRings rest with
            | .error e => .error e
            | .ok p =>
              if r = "outer" then .ok (coords :: p.1, p.2)
              else if r = "inner" then .ok (p.1, coords :: p.2)
              else .ok (coords :: p.1, p.2)
    else collectRings rest

/-- Embedding of `OSMAPIHandler.element_to_feature` (source lines 153–302).
`Except.error` models an uncaught `KeyError`; `.ok none` models returning
`None`. -/
def elementToFeature (element : OSMElement) (includePoints : Bool)
    (featureName : String) : Except String (Option Feature) :=
  match element with
  | .node lon lat tags =>
    if !includePoints then .ok none
    else
      match lon, lat with
      | some lo, some la =>
        if tags.isEmpty then .ok none
        else .ok (some ⟨.point (lo, la), tags⟩)
      | _, _ => .ok none
  | .way geometryOpt tags =>
    match geometryOpt with
    | none => .ok none
    | some coords =>
      if coords.isEmpty then .ok none
      else if isRoadFeature featureName then
        .ok (some ⟨.lineString coords, tags⟩)
      else if wayIsArea coords tags then
        .ok (some ⟨.polygon [coords], tags⟩)
      else
        .ok (some ⟨.lineString coords, tags⟩)
  | .relation membersOpt tags =>
    match membersOpt with
    | none => .ok none
    | some members =>
      if !(decide (tagGet tags "type" = some "multipolygon") ||
            decide (tagGet tags "type" = some "boundary")) then .ok none
      else
        match collectRings members with
        | .error e => .error e
        | .ok (outerWays, innerWays) =>
          match outerWays with
          | [] => .ok none
          | [outer] =>
            match innerWays with
            | [] => .ok (some ⟨.polygon [closeRing outer], tags⟩)
            | _ =>
              .ok (some ⟨.polygon (closeRing outer :: innerWays.map closeRing), tags⟩)
          | _ =>
            .ok (some ⟨.multiPolygon (outerWays.map (fun o => [closeRing o])), tags⟩)

/-- Arithmetic mean of a ring's vertex coordinates (source lines 360–364):
`[x_sum / n, y_sum / n]` over the raw vertex list, repeated closing point
included.  The source raises `ZeroDivisionError` on an empty ring; theorems
about this function carry a nonemptiness hypothesis instead. -/
def ringMean (ring : List Coord) : Coord :=
  ((ring.map Prod.fst).sum / ring.length, (ring.map Prod.snd).sum / ring.length)

/-- Label position selection of `create_labels_geojson` (source lines 350–372),
`none` when the feature is skipped (`continue` or `label_pos` left `None`). -/
def labelPos? : Geometry → Option Coord
  | .point c => some c
  | .lineString cs =>
    if cs.isEmpty then none
    else some (cs.getD (cs.length / 2) (0, 0))
  | .polygon rings =>
    match rings with
    | [] => none
    | ring :: _ => some (ringMean ring)
  | .multiPolygon ps =>
    match ps with
    | [] => none
    | p :: _ =>
      match p with
      | [] => none
      | ring :: _ => if ring.isEmpty then none else some (ringMean ring)

/-- Embedding of `OSMAPIHandler.create_labels_geojson` (source lines 333–388),
returning the list of label features. -/
def createLabelsGeojson (features : List Feature) : List Feature :=
  features.filterMap fun f =>
    match tagGet f.properties "name" with
    | none => none
    | some s =>
      if s = "" then none
      else
        match labelPos? f.geometry with
        | none => none
        | some p => some ⟨.point p, f.properties⟩

/-- The page layout computed once by `SVGExporter.__init__`
(source `src/svg_exporter.py` lines 21–101): every field the constructor
stores on `self`. -/
structure PageLayout where
  south : ℚ
  west : ℚ
  north : ℚ
  east : ℚ
  marginMm : ℚ
  lonRange : ℚ
  latRange : ℚ
  pageWidthMm : ℚ
  pageHeightMm : ℚ
  contentWidthMm : ℚ
  contentHeightMm : ℚ
  width : ℚ
  height : ℚ
  marginPx : ℚ
  drawWidth : ℚ
  drawHeight : ℚ
  scale : ℚ
  xOffset : ℚ
  yOffset : ℚ
deriving DecidableEq, Repr

/-- The `SVGExporter.PAPER_SIZES` table: known names map to
`(width_mm, height_mm)`. -/
def paperSizes (name : String) : Option (ℚ × ℚ) :=
  if name = "A4" then some (210, 297)
  else if name = "A3" then some (297, 420)
  else if name = "Letter" then some (216, 279)
  else if name = "Tabloid" then some (279, 432)
  else none

/-- Source line 70: `mm_to_px = 3.7795` (96 DPI approximation). -/
def mmToPx : ℚ := 3.7795

/-- Embedding of `SVGExporter.__init__` (source lines 21–101).  `bbox` is
`(south, west, north, east)`; `latCorrection` stands for the float
`math.cos(math.radians((north + south) / 2))` computed on line 45. -/
def mkSVGExporter (bbox : ℚ × ℚ × ℚ × ℚ) (paperSize : String)
    (orientation : String) (marginMm : ℚ) (latCorrection : ℚ) : PageLayout :=
  let south := bbox.1
  let west := bbox.2.1
  let north := bbox.2.2.1
  let east := bbox.2.2.2
  let resolvedPaper := if (paperSizes paperSize).isSome then paperSize else "A4"
  let paperDims := (paperSizes resolvedPaper).getD (210, 297)
  let lonRange := east - west
  let latRange := north - south
  let correctedLonRange := lonRange * latCorrection
  let bboxAspect := if latRange > 0 then correctedLonRange / latRange else 1
  let orient :=
    if orientation = "auto" then
      if bboxAspect > 1 then "landscape" else "portrait"
    else orientation
  let pageWidthMm :=
    if orient = "landscape" then max paperDims.1 paperDims.2
    else min paperDims.1 paperDims.2
  let pageHeightMm :=
    if orient = "landscape" then min paperDims.1 paperDims.2
    else max paperDims.1 paperDims.2
  let contentWidthMm := pageWidthMm - 2 * marginMm
  let contentHeightMm := pageHeightMm - 2 * marginMm
  let width := pageWidthMm * mmToPx
  let height := pageHeightMm * mmToPx
  let marginPx := marginMm * mmToPx
  let drawWidth := contentWidthMm * mmToPx
  let drawHeight := contentHeightMm * mmToPx
  let contentAspect := drawWidth / drawHeight
  if bboxAspect > contentAspect then
    let scale := drawWidth / correctedLonRange
    let actualHeight := latRange * scale
    { south := south, west := west, north := north, east := east,
      marginMm := marginMm, lonRange := lonRange, latRange := latRange,
      pageWidthMm := pageWidthMm, pageHeightMm := pageHeightMm,
      contentWidthMm := contentWidthMm, contentHeightMm := contentHeightMm,
      width := width, height := height, marginPx := marginPx,
      drawWidth := drawWidth, drawHeight := drawHeight, scale := scale,
      xOffset := marginPx,
      yOffset := marginPx + (drawHeight - actualHeight) / 2 }
  else
    let scale := drawHeight / latRange
    let actualWidth := correctedLonRange * scale
    { south := south, west := west, north := north, east := east,
      marginMm := marginMm, lonRange := lonRange, latRange := latRange,
      pageWidthMm := pageWidthMm, pageHeightMm := pageHeightMm,
      contentWidthMm := contentWidthMm, contentHeightMm := contentHeightMm,
      width := width, height := height, marginPx := marginPx,
      drawWidth := drawWidth, drawHeight := drawHeight, scale := scale,
      xOffset := marginPx + (drawWidth - actualWidth) / 2,
      yOffset := marginPx }

/-- Embedding of `SVGExporter.lon_to_x` (source lines 103–116).  The
`lat_correction` computed on lines 109–110 of the source is never used
there. -/
def lonToX (L : PageLayout) (lon : ℚ) : ℚ :=
  let normalizedX := if L.lonRange > 0 then (lon - L.west) / L.lonRange else 0
  L.xOffset + normalizedX * L.drawWidth

/-- Embedding of `SVGExporter.lat_to_y` (source lines 118–127). -/
def latToY (L : PageLayout) (lat : ℚ) : ℚ :=
  let normalizedY := if L.latRange > 0 then (L.north - lat) / L.latRange else 0
  L.yOffset + normalizedY * L.drawHeight

/-- Geometry kinds distinguished by `add_feature_to_svg` (source lines
249–254): point, line and polygon geometries. -/
inductive GeomKind where
  | point : GeomKind
  | line : GeomKind
  | polygon : GeomKind
deriving DecidableEq, Repr

/-- A QGIS feature as seen by the label-emission logic: its geometry kind
(`none` models a null geometry) and its optional `name` attribute (`none`
models a missing field or NULL value, whose lookup the source catches). -/
structure QgsFeatureM where
  geomKind : Option GeomKind
  name : Option String
deriving DecidableEq, Repr

/-- A QGIS layer as seen by `export_layers_to_svg`: name, validity flag, and
its features in iteration order. -/
structure QgsLayerM where
  name : String
  isValid : Bool
  features : List QgsFeatureM
deriving DecidableEq, Repr

/-- Name-validity check of `add_point_to_svg` / `add_polygon_to_svg`
(source lines 344–346 and 429–431): the attribute exists, is truthy, strips
to a nonempty string, and is not the string `"NULL"`; returns the stripped
label text. -/
def validLabelName (name : Option String) : Option String :=
  match name with
  | none => none
  | some s =>
    if s = "" then none
    else if trimStr s = "" then none
    else if s = "NULL" then none
    else some (trimStr s)

/-- Source lines 337–339 / 422–424: the water-layer keyword test on the
lowercased layer name. -/
def isWaterBodyLayer (layerName : String) : Bool :=
  ["water bodies", "water_bodies", "bays", "bay"].any fun kw =>
    strContains (lowerStr layerName) kw

/-- The label-emission step for one feature (`add_feature_to_svg` dispatching
to `add_point_to_svg` / `add_polygon_to_svg`): returns the updated
`used_label_names` set and the list of label texts emitted for this feature.
Line geometries and null geometries never emit labels. -/
def addFeatureLabel (layerName : String) (used : List String)
    (f : QgsFeatureM) : List String × List String :=
  match f.geomKind with
  | none => (used, [])
  | some .line => (used, [])
  | some .point =>
    if isWaterBodyLayer layerName then
      match validLabelName f.name with
      | none => (used, [])
      | some n => if used.contains n then (used, []) else (n :: used, [n])
    else (used, [])
  | some .polygon =>
    if isWaterBodyLayer layerName then
      match validLabelName f.name with
      | none => (used, [])
      | some n => if used.contains n then (used, []) else (n :: used, [n])
    else (used, [])

/-- Fold of `addFeatureLabel` over one layer's features (the feature loop of
`export_layers_to_svg`, source lines 201–219), threading `used_label_names`. -/
def processFeatures (layerName : String) (used : List String) :
    List QgsFeatureM → List String × List String
  | [] => (used, [])
  | f :: fs =>
    let r1 := addFeatureLabel layerName used f
    let r2 := processFeatures layerName r1.1 fs
    (r2.1, r1.2 ++ r2.2)

/-- Fold over the layers of one export pass (source lines 165–221): invalid
layers are skipped; the single `used_label_names` set created on line 160 is
threaded through every layer. -/
def processLayers (used : List String) :
    List QgsLayerM → List String × List String
  | [] => (used, [])
  | l :: ls =>
    if l.isValid then
      let r1 := processFeatures l.name used l.features
      let r2 := processLayers r1.1 ls
      (r2.1, r1.2 ++ r2.2)
    else processLayers used ls

/-- The label texts emitted by one document-emission pass of
`export_layers_to_svg`, starting from the empty `used_label_names` set. -/
def exportLabels (layers : List QgsLayerM) : List String :=
  (processLayers [] layers).2

/-- A bounding box `(south, west, north, east)` in degrees. -/
structure BBoxD where
  south : ℚ
  west : ℚ
  north : ℚ
  east : ℚ
deriving DecidableEq, Repr

/-- Embedding of `FrameBuilder.create_frame_geometry`
(source `src/frame_builder.py` lines 44–116).  `latCorrection` stands for the
float `math.cos(math.radians(center_lat))` used by
`meters_per_degree_at_lat`.  The returned value is the closed 5-point
rectangle ring (as `(lon, lat)` pairs, matching `QgsPointXY(x, y)` order);
`Except.error` models the `ValueError` raised on an invalid bbox. -/
def createFrameGeometry (bbox : ℚ × ℚ × ℚ × ℚ) (orientation : String)
    (latCorrection : ℚ) : Except String (List Coord) :=
  let south := bbox.1
  let west := bbox.2.1
  let north := bbox.2.2.1
  let east := bbox.2.2.2
  if south ≥ north ∨ west ≥ east then
    .error "Invalid bbox: south >= north or west >= east"
  else
    let centerLat := (north + south) / 2
    let centerLon := (west + east) / 2
    let frameWidthInches : ℚ := if lowerStr orientation = "landscape" then 14 else 11
    let frameHeightInches : ℚ := if lowerStr orientation = "landscape" then 11 else 14
    let frameWidthM := frameWidthInches * 0.0254
    let frameHeightM := frameHeightInches * 0.0254
    let frameHeightDeg := frameHeightM / 111000
    let metersPerDegLon := latCorrection * 111000
    let frameWidthDeg := frameWidthM / metersPerDegLon
    let frameNorth := centerLat + frameHeightDeg / 2
    let frameSouth := centerLat - frameHeightDeg / 2
    let frameEast := centerLon + frameWidthDeg / 2
    let frameWest := centerLon - frameWidthDeg / 2
    .ok [(frameWest, frameSouth), (frameEast, frameSouth),
         (frameEast, frameNorth), (frameWest, frameNorth),
         (frameWest, frameSouth)]

/-- The bounding box of a point ring, folding `min`/`max` over the
coordinates (the behaviour of `QgsGeometry.boundingBox` on the ring). -/
def ringBBox (pts : List Coord) : BBoxD :=
  match pts with
  | [] => ⟨0, 0, 0, 0⟩
  | p :: rest =>
    ⟨rest.foldl (fun acc q => min acc q.2) p.2,
     rest.foldl (fun acc q => min acc q.1) p.1,
     rest.foldl (fun acc q => max acc q.2) p.2,
     rest.foldl (fun acc q => max acc q.1) p.1⟩

/-- Modelled from the spec: the spec's stated closedness condition for
polygon promotion of a way, "the ring is closed (≥3 distinct points,
first==last)".  Kept separate from `wayIsClosed` (the source's condition) so
the two can be compared. -/
def specRingClosed (coords : List Coord) : Prop :=
  3 ≤ coords.dedup.length ∧ coords.head? = coords.getLast?

/-- Invariant relating a starting `used_label_names` set, the set after a
processing step, and the labels the step emitted: the set only grows, every
emitted label lands in the set, no label is emitted twice, and nothing
already in the set is emitted again. -/
def StepOk (used usedAfter out : List String) : Prop :=
  (∀ s, s ∈ used → s ∈ usedAfter) ∧ (∀ s, s ∈ out → s ∈ usedAfter) ∧
    out.Nodup ∧ (∀ s, s ∈ out → s ∉ used)

/-- The frame height of `create_frame_geometry` in degrees, as a closed
form: `inches × 0.0254 / 111000`. -/
def frameHeightDegOf (orientation : String) : ℚ :=
  (if lowerStr orientation = "landscape" then (11 : ℚ) else 14) * 0.0254 / 111000

/-- The frame width of `create_frame_geometry` in degrees, as a closed form:
`inches × 0.0254 / (latCorrection × 111000)`. -/
def frameWidthDegOf (orientation : String) (latCorrection : ℚ) : ℚ :=
  (if lowerStr orientation = "landscape" then (14 : ℚ) else 11) * 0.0254 /
    (latCorrection * 111000)

instance {ε α : Type} [DecidableEq ε] [DecidableEq α] : DecidableEq (Except ε α) :=
  fun a b =>
    match a, b with
    | .ok x, .ok y => decidable_of_iff (x = y) (by simp)
    | .error x, .error y => decidable_of_iff (x = y) (by simp)
    | .ok _, .error _ => isFalse (by simp)
    | .error _, .ok _ => isFalse (by simp)

instance (coords : List Coord) : Decidable (specRingClosed coords) := by
  unfold specRingClosed
  infer_instance

lemma wayIsArea_eq_true_iff (coords : List Coord) (tags : Tags) :
    wayIsArea coords tags = true ↔
      ((2 < coords.length ∧ coords.head? = coords.getLast?) ∧
        (tagGet tags "area" = some "yes" ∨ hasTag tags "building" = true ∨
          hasTag tags "landuse" = true ∨ hasTag tags "natural" = true ∨
          hasTag tags "leisure" = true ∨ hasTag tags "amenity" = true)) := by
  simp [wayIsArea, wayIsClosed, Bool.and_eq_true, Bool.or_eq_true, decide_eq_true_eq,
    or_assoc]

/-- C1, counterexample: the way `[(0,0), (1,0), (0,0)]` has only two distinct
points, so the claim's closedness condition ("at least 3 distinct points,
first == last") fails and the claim predicts a LineString; but the source's
closedness test is `len(coords) > 2` over raw entries, so with a `building`
tag under a non-road category the code returns a Polygon. -/
theorem c1_counterexample :
    elementToFeature (.way (some [((0 : ℚ), 0), (1, 0), (0, 0)]) [("building", "yes")])
        false "water_bodies_lakes" =
      .ok (some ⟨.polygon [[((0 : ℚ), 0), (1, 0), (0, 0)]], [("building", "yes")]⟩) ∧
    ¬ specRingClosed [((0 : ℚ), 0), (1, 0), (0, 0)] :=
  ⟨by decide, by decide⟩

/-- C1, amended: for a way with nonempty embedded geometry, the result is a
Polygon exactly when the feature category is not road/trail-like, the
coordinate list has more than 2 entries (repeats counted) with first equal to
last, and the tags contain `area=yes` or one of the keys `building`,
`landuse`, `natural`, `leisure`, `amenity`; under a road/trail-like category
the result is always a LineString. -/
theorem c1_way_promotion (coords : List Coord) (tags : Tags) (featureName : String)
    (includePoints : Bool) (h : coords ≠ []) :
    elementToFeature (.way (some coords) tags) includePoints featureName =
      .ok (some ⟨
        if isRoadFeature featureName = true then .lineString coords
        else if (2 < coords.length ∧ coords.head? = coords.getLast?) ∧
            (tagGet tags "area" = some "yes" ∨ hasTag tags "building" = true ∨
              hasTag tags "landuse" = true ∨ hasTag tags "natural" = true ∨
              hasTag tags "leisure" = true ∨ hasTag tags "amenity" = true)
          then .polygon [coords] else .lineString coords, tags⟩) := by
  have hne : coords.isEmpty = false := by
    cases coords
    · exact absurd rfl h
    · rfl
  simp only [elementToFeature]
  rw [hne]
  simp only [Bool.false_eq_true, if_false]
  by_cases hr : isRoadFeature featureName
  · simp [hr]
  · simp only [Bool.false_eq_true, if_false, hr, if_neg hr]
    by_cases ha : wayIsArea coords tags
    · rw [if_pos ha, if_pos ((wayIsArea_eq_true_iff coords tags).mp ha)]
    · rw [if_neg ha, if_neg (fun hp => ha ((wayIsArea_eq_true_iff coords tags).mpr hp))]

/-- C1, witness: a closed square way tagged `building=yes` under the
non-road category `water_bodies_lakes` becomes a Polygon. -/
theorem c1_way_promotion_witness :
    ([((0 : ℚ), 0), (1, 0), (1, 1), (0, 0)] : List Coord) ≠ [] ∧
    elementToFeature (.way (some [((0 : ℚ), 0), (1, 0), (1, 1), (0, 0)]) [("building", "yes")])
        false "water_bodies_lakes" =
      .ok (some ⟨.polygon [[((0 : ℚ), 0), (1, 0), (1, 1), (0, 0)]], [("building", "yes")]⟩) := by
  constructor
  · decide
  · rw [c1_way_promotion [((0 : ℚ), 0), (1, 0), (1, 1), (0, 0)] [("building", "yes")]
      "water_bodies_lakes" false (by decide)]
    decide

lemma closeRing_cons (a : Coord) (t : List Coord) (b : Coord)
    (hg : (a :: t).getLast? = some b) :
    closeRing (a :: t) = if a = b then a :: t else (a :: t) ++ [a] := by
  unfold closeRing
  rw [List.head?_cons, hg]

lemma closeRing_head_eq_getLast (r : List Coord) (h : r ≠ []) :
    (closeRing r).head? = (closeRing r).getLast? := by
  obtain ⟨a, t, rfl⟩ := List.exists_cons_of_ne_nil h
  obtain ⟨b, hg⟩ : ∃ b, (a :: t).getLast? = some b := by
    cases hlast : (a :: t).getLast? with
    | none => simp at hlast
    | some b => exact ⟨b, rfl⟩
  rw [closeRing_cons a t b hg]
  by_cases hab : a = b
  · rw [if_pos hab, List.head?_cons, hg, hab]
  · rw [if_neg hab, List.getLast?_concat]
    simp

lemma closeRing_of_closed (r : List Coord) (h : r.head? = r.getLast?) :
    closeRing r = r := by
  unfold closeRing
  cases hh : r.head? with
  | none => cases hg : r.getLast? <;> rfl
  | some a =>
    cases hg : r.getLast? with
    | none => rfl
    | some b =>
      have hab : a = b := by
        rw [hh, hg] at h
        exact Option.some.inj h
      show (if a = b then r else r ++ [a]) = r
      rw [if_pos hab]

lemma collectRings_ne_nil (ms : List Member) (outs ins : List (List Coord))
    (h : collectRings ms = .ok (outs, ins)) :
    (∀ r ∈ outs, r ≠ []) ∧ ∀ r ∈ ins, r ≠ [] := by
  induction ms generalizing outs ins with
  | nil =>
    simp only [collectRings, Except.ok.injEq, Prod.mk.injEq] at h
    obtain ⟨h1, h2⟩ := h
    subst h1
    subst h2
    simp
  | cons m rest ih =>
    unfold collectRings at h
    split at h
    · split at h
      · exact ih _ _ h
      · rename_i coords hg
        split at h
        · exact ih _ _ h
        · rename_i hemp
          split at h
          · exact absurd h (by simp)
          · rename_i role hrole
            split at h
            · exact absurd h (by simp)
            · rename_i p hrec
              have hcoords : coords ≠ [] := by
                intro hc
                rw [hc] at hemp
                simp at hemp
              obtain ⟨iho, ihi⟩ := ih p.1 p.2 hrec
              split at h
              · simp only [Except.ok.injEq, Prod.mk.injEq] at h
                obtain ⟨h2, h3⟩ := h
                subst h2
                subst h3
                refine ⟨fun r hr => ?_, ihi⟩
                rcases List.mem_cons.mp hr with rfl | hr2
                · exact hcoords
                · exact iho r hr2
              · split at h
                · simp only [Except.ok.injEq, Prod.mk.injEq] at h
                  obtain ⟨h2, h3⟩ := h
                  subst h2
                  subst h3
                  refine ⟨iho, fun r hr => ?_⟩
                  rcases List.mem_cons.mp hr with rfl | hr2
                  · exact hcoords
                  · exact ihi r hr2
                · simp only [Except.ok.injEq, Prod.mk.injEq] at h
                  obtain ⟨h2, h3⟩ := h
                  subst h2
                  subst h3
                  refine ⟨fun r hr => ?_, ihi⟩
                  rcases List.mem_cons.mp hr with rfl | hr2
                  · exact hcoords
                  · exact iho r hr2
    · exact ih _ _ h

lemma collectRings_role_fallback (ms1 ms2 : List Member) (mt : String)
    (g : Option (List Coord)) (r : String) (h1 : r ≠ "outer") (h2 : r ≠ "inner") :
    collectRings (ms1 ++ ⟨mt, g, some r⟩ :: ms2) =
      collectRings (ms1 ++ ⟨mt, g, some "outer"⟩ :: ms2) := by
  induction ms1 with
  | nil =>
    simp only [List.nil_append]
    simp [collectRings, h1, h2]
  | cons m rest ih =>
    simp only [List.cons_append, collectRings, List.append_eq, ih]

/-- C2: a relation of type multipolygon or boundary whose members partition
into exactly one outer ring and two inner rings converts to a single Polygon
feature whose ring list is the outer ring followed by the two inner rings in
order, each ring passed through the closing step; every resulting ring is
closed, and rings that arrive closed are passed through unchanged. -/
theorem c2_relation_polygon (members : List Member) (tags : Tags)
    (o i1 i2 : List Coord) (includePoints : Bool) (featureName : String)
    (htype : tagGet tags "type" = some "multipolygon" ∨ tagGet tags "type" = some "boundary")
    (hrings : collectRings members = .ok ([o], [i1, i2])) :
    elementToFeature (.relation (some members) tags) includePoints featureName =
      .ok (some ⟨.polygon [closeRing o, closeRing i1, closeRing i2], tags⟩) ∧
    ((closeRing o).head? = (closeRing o).getLast? ∧
      (closeRing i1).head? = (closeRing i1).getLast? ∧
      (closeRing i2).head? = (closeRing i2).getLast?) ∧
    ((o.head? = o.getLast? → closeRing o = o) ∧
      (i1.head? = i1.getLast? → closeRing i1 = i1) ∧
      (i2.head? = i2.getLast? → closeRing i2 = i2)) := by
  have hcond : (!(decide (tagGet tags "type" = some "multipolygon") ||
      decide (tagGet tags "type" = some "boundary"))) = false := by
    rcases htype with h | h <;> simp [h]
  have hnn := collectRings_ne_nil members [o] [i1, i2] hrings
  refine ⟨?_, ⟨?_, ?_, ?_⟩,
    fun h => closeRing_of_closed o h, fun h => closeRing_of_closed i1 h,
    fun h => closeRing_of_closed i2 h⟩
  · simp only [elementToFeature, hcond, Bool.false_eq_true, if_false, hrings]
    rfl
  · exact closeRing_head_eq_getLast o (hnn.1 o (by simp))
  · exact closeRing_head_eq_getLast i1 (hnn.2 i1 (by simp))
  · exact closeRing_head_eq_getLast i2 (hnn.2 i2 (by simp))

/-- C2, witness: a multipolygon relation with one closed outer square and two
closed inner triangles yields a single 3-ring Polygon feature. -/
theorem c2_relation_polygon_witness :
    (tagGet [("type", "multipolygon")] "type" = some "multipolygon" ∨
      tagGet [("type", "multipolygon")] "type" = some "boundary") ∧
    collectRings
        [⟨"way", some [((0 : ℚ), 0), (4, 0), (4, 4), (0, 4), (0, 0)], some "outer"⟩,
         ⟨"way", some [((1 : ℚ), 1), (2, 1), (2, 2), (1, 1)], some "inner"⟩,
         ⟨"way", some [((3 : ℚ), 3), (3, 4), (4, 3), (3, 3)], some "inner"⟩] =
      .ok ([[((0 : ℚ), 0), (4, 0), (4, 4), (0, 4), (0, 0)]],
           [[((1 : ℚ), 1), (2, 1), (2, 2), (1, 1)], [((3 : ℚ), 3), (3, 4), (4, 3), (3, 3)]]) ∧
    elementToFeature
        (.relation
          (some [⟨"way", some [((0 : ℚ), 0), (4, 0), (4, 4), (0, 4), (0, 0)], some "outer"⟩,
                 ⟨"way", some [((1 : ℚ), 1), (2, 1), (2, 2), (1, 1)], some "inner"⟩,
                 ⟨"way", some [((3 : ℚ), 3), (3, 4), (4, 3), (3, 3)], some "inner"⟩])
          [("type", "multipolygon")]) false "" =
      .ok (some ⟨.polygon
        [[((0 : ℚ), 0), (4, 0), (4, 4), (0, 4), (0, 0)],
         [((1 : ℚ), 1), (2, 1), (2, 2), (1, 1)],
         [((3 : ℚ), 3), (3, 4), (4, 3), (3, 3)]], [("type", "multipolygon")]⟩) := by
  refine ⟨Or.inl (by decide), by decide, ?_⟩
  rw [(c2_relation_polygon _ [("type", "multipolygon")]
    [((0 : ℚ), 0), (4, 0), (4, 4), (0, 4), (0, 0)]
    [((1 : ℚ), 1), (2, 1), (2, 2), (1, 1)]
    [((3 : ℚ), 3), (3, 4), (4, 3), (3, 3)] false ""
    (Or.inl (by decide)) (by decide)).1]
  decide

/-- C9, counterexample: a relation member whose dictionary carries no `role`
key makes the conversion fail with a `KeyError` (rather than being folded
into the outer set as the claim states), while the same member with role
`"outer"` converts fine. -/
theorem c9_counterexample :
    elementToFeature
        (.relation (some [⟨"way", some [((0 : ℚ), 0), (1, 0), (0, 1), (0, 0)], none⟩])
          [("type", "multipolygon")]) false "" = .error "KeyError: role" ∧
    elementToFeature
        (.relation (some [⟨"way", some [((0 : ℚ), 0), (1, 0), (0, 1), (0, 0)], some "outer"⟩])
          [("type", "multipolygon")]) false "" =
      .ok (some ⟨.polygon [[((0 : ℚ), 0), (1, 0), (0, 1), (0, 0)]], [("type", "multipolygon")]⟩) :=
  ⟨by decide, by decide⟩

/-- C9, amended: a relation member whose `role` key is present but is neither
`"outer"` nor `"inner"` (including the empty role string) contributes to the
feature exactly as an outer-role member would; a member whose `role` key is
absent instead raises `KeyError` and fails the conversion. -/
theorem c9_role_fallback (ms1 ms2 : List Member) (mt : String) (g : Option (List Coord))
    (r : String) (tags : Tags) (includePoints : Bool) (featureName : String)
    (h1 : r ≠ "outer") (h2 : r ≠ "inner") :
    elementToFeature (.relation (some (ms1 ++ ⟨mt, g, some r⟩ :: ms2)) tags)
        includePoints featureName =
      elementToFeature (.relation (some (ms1 ++ ⟨mt, g, some "outer"⟩ :: ms2)) tags)
        includePoints featureName := by
  simp only [elementToFeature, collectRings_role_fallback ms1 ms2 mt g r h1 h2]

/-- C9, witness: a member with the empty role string behaves exactly like an
outer-role member. -/
theorem c9_role_fallback_witness :
    ("" : String) ≠ "outer" ∧ ("" : String) ≠ "inner" ∧
    elementToFeature
        (.relation (some [⟨"way", some [((0 : ℚ), 0), (1, 0), (0, 1), (0, 0)], some ""⟩])
          [("type", "multipolygon")]) false "" =
      elementToFeature
        (.relation (some [⟨"way", some [((0 : ℚ), 0), (1, 0), (0, 1), (0, 0)], some "outer"⟩])
          [("type", "multipolygon")]) false "" :=
  ⟨by decide, by decide,
    c9_role_fallback [] [] "way" (some [((0 : ℚ), 0), (1, 0), (0, 1), (0, 0)]) ""
      [("type", "multipolygon")] false "" (by decide) (by decide)⟩

/-- C6: for a feature carrying a non-empty `name` property, the label-point
engine places the label by this exact case analysis — Point: the point
itself; LineString: the coordinate at index `len // 2`; Polygon: the
arithmetic mean of the outer ring's vertices; MultiPolygon: the mean of the
outer ring of the first polygon part — and features without a non-empty name
yield no label feature. -/
theorem c6_label_positions (props : Tags) (s : String)
    (hname : tagGet props "name" = some s) (hs : s ≠ "") :
    (∀ c, createLabelsGeojson [⟨.point c, props⟩] = [⟨.point c, props⟩]) ∧
    (∀ cs, cs ≠ [] →
      createLabelsGeojson [⟨.lineString cs, props⟩] =
        [⟨.point (cs.getD (cs.length / 2) (0, 0)), props⟩]) ∧
    (∀ ring rest, ring ≠ [] →
      createLabelsGeojson [⟨.polygon (ring :: rest), props⟩] =
        [⟨.point (ringMean ring), props⟩]) ∧
    (∀ ring rest ps, ring ≠ [] →
      createLabelsGeojson [⟨.multiPolygon ((ring :: rest) :: ps), props⟩] =
        [⟨.point (ringMean ring), props⟩]) ∧
    (∀ g props2, tagGet props2 "name" = none ∨ tagGet props2 "name" = some "" →
      createLabelsGeojson [⟨g, props2⟩] = []) := by
  refine ⟨?_, ?_, ?_, ?_, ?_⟩
  · intro c
    simp [createLabelsGeojson, hname, hs, labelPos?]
  · intro cs hcs
    simp [createLabelsGeojson, List.filterMap_cons, hname, hs, labelPos?, hcs]
  · intro ring rest hring
    simp [createLabelsGeojson, hname, hs, labelPos?]
  · intro ring rest ps hring
    simp [createLabelsGeojson, List.filterMap_cons, hname, hs, labelPos?, hring]
  · intro g props2 h2
    rcases h2 with h2 | h2 <;> simp [createLabelsGeojson, h2]

/-- C6, witness: a named 3-point LineString is labelled at the coordinate
with index `3 // 2 = 1`. -/
theorem c6_label_positions_witness :
    tagGet [("name", "A")] "name" = some "A" ∧ ("A" : String) ≠ "" ∧
    createLabelsGeojson [⟨.lineString [((0 : ℚ), 0), (1, 1), (2, 2)], [("name", "A")]⟩] =
      [⟨.point (1, 1), [("name", "A")]⟩] := by
  refine ⟨by decide, by decide, ?_⟩
  rw [(c6_label_positions [("name", "A")] "A" (by decide) (by decide)).2.1
    [((0 : ℚ), 0), (1, 1), (2, 2)] (by decide)]
  decide

/-- C10, counterexample: a label feature produced from a source feature with
properties `name=A, highway=x` carries the full property mapping, including
the non-name key `highway` — not only a name property as the claim states. -/
theorem c10_counterexample :
    createLabelsGeojson [⟨.point (1, 2), [("name", "A"), ("highway", "x")]⟩] =
      [⟨.point (1, 2), [("name", "A"), ("highway", "x")]⟩] ∧
    tagGet [("name", "A"), ("highway", "x")] "highway" = some "x" ∧
    ([("name", "A"), ("highway", "x")] : Tags) ≠ [("name", "A")] :=
  ⟨by decide, by decide, by decide⟩

/-- C10, amended: every feature returned by the label-point engine is a Point
feature whose property mapping is the full, unmodified property mapping of
some input feature (all source properties are carried over, with no
stripping to a name-only subset). -/
theorem c10_label_properties (fs : List Feature) (f : Feature)
    (h : f ∈ createLabelsGeojson fs) :
    (∃ c, f.geometry = .point c) ∧ ∃ src ∈ fs, f.properties = src.properties := by
  unfold createLabelsGeojson at h
  rw [List.mem_filterMap] at h
  obtain ⟨a, ha, hf⟩ := h
  split at hf
  · simp at hf
  · rename_i s hn
    split at hf
    · simp at hf
    · rename_i hs
      split at hf
      · simp at hf
      · rename_i p hp
        simp only [Option.some.injEq] at hf
        subst hf
        exact ⟨⟨p, rfl⟩, a, ha, rfl⟩

/-- C10, witness: the amended statement evaluated on the counterexample
input. -/
theorem c10_label_properties_witness :
    (⟨.point ((1 : ℚ), 2), [("name", "A"), ("highway", "x")]⟩ : Feature) ∈
      createLabelsGeojson [⟨.point ((1 : ℚ), 2), [("name", "A"), ("highway", "x")]⟩] ∧
    ((∃ c, (⟨.point ((1 : ℚ), 2), [("name", "A"), ("highway", "x")]⟩ : Feature).geometry =
        .point c) ∧
      ∃ src ∈ [(⟨.point ((1 : ℚ), 2), [("name", "A"), ("highway", "x")]⟩ : Feature)],
        (⟨.point ((1 : ℚ), 2), [("name", "A"), ("highway", "x")]⟩ : Feature).properties =
          src.properties) :=
  ⟨by decide, c10_label_properties _ _ (by decide)⟩

lemma addFeatureLabel_cases (layerName : String) (used : List String) (f : QgsFeatureM) :
    addFeatureLabel layerName used f = (used, []) ∨
      ∃ n, n ∉ used ∧ addFeatureLabel layerName used f = (n :: used, [n]) := by
  unfold addFeatureLabel
  split
  · exact Or.inl rfl
  · exact Or.inl rfl
  · split
    · split
      · exact Or.inl rfl
      · rename_i n heq
        split
        · exact Or.inl rfl
        · rename_i hc
          exact Or.inr ⟨n, by simpa using hc, rfl⟩
    · exact Or.inl rfl
  · split
    · split
      · exact Or.inl rfl
      · rename_i n heq
        split
        · exact Or.inl rfl
        · rename_i hc
          exact Or.inr ⟨n, by simpa using hc, rfl⟩
    · exact Or.inl rfl

lemma StepOk.id (used : List String) : StepOk used used [] :=
  ⟨fun _ h => h, by simp, List.nodup_nil, by simp⟩

lemma StepOk.comp {used u1 out1 u2 out2 : List String}
    (h1 : StepOk used u1 out1) (h2 : StepOk u1 u2 out2) :
    StepOk used u2 (out1 ++ out2) := by
  obtain ⟨g1, e1, n1, d1⟩ := h1
  obtain ⟨g2, e2, n2, d2⟩ := h2
  refine ⟨fun s hs => g2 s (g1 s hs), fun s hs => ?_, ?_, fun s hs => ?_⟩
  · rcases List.mem_append.mp hs with hs | hs
    · exact g2 s (e1 s hs)
    · exact e2 s hs
  · refine List.Nodup.append n1 n2 (fun s hs1 hs2 => d2 s hs2 (e1 s hs1))
  · rcases List.mem_append.mp hs with hs | hs
    · exact d1 s hs
    · exact fun hu => d2 s hs (g1 s hu)

lemma stepOk_addFeatureLabel (layerName : String) (used : List String) (f : QgsFeatureM) :
    StepOk used (addFeatureLabel layerName used f).1 (addFeatureLabel layerName used f).2 := by
  rcases addFeatureLabel_cases layerName used f with h | ⟨n, hn, h⟩
  · rw [h]
    exact StepOk.id used
  · rw [h]
    refine ⟨fun s hs => List.mem_cons_of_mem n hs, fun s hs => ?_, by simp,
      fun s hs => ?_⟩
    · have hsn := List.mem_singleton.mp hs
      subst hsn
      exact List.mem_cons_self _ _
    · have hsn := List.mem_singleton.mp hs
      subst hsn
      exact hn

lemma stepOk_processFeatures (layerName : String) (used : List String)
    (fs : List QgsFeatureM) :
    StepOk used (processFeatures layerName used fs).1 (processFeatures layerName used fs).2 := by
  induction fs generalizing used with
  | nil => exact StepOk.id used
  | cons f fs ih =>
    exact StepOk.comp (stepOk_addFeatureLabel layerName used f)
      (ih (addFeatureLabel layerName used f).1)

lemma stepOk_processLayers (used : List String) (layers : List QgsLayerM) :
    StepOk used (processLayers used layers).1 (processLayers used layers).2 := by
  induction layers generalizing used with
  | nil => exact StepOk.id used
  | cons l ls ih =>
    unfold processLayers
    by_cases hv : l.isValid
    · rw [if_pos hv]
      exact StepOk.comp (stepOk_processFeatures l.name used l.features)
        (ih (processFeatures l.name used l.features).1)
    · rw [if_neg hv]
      exact ih used

/-- C5: within one document-emission pass, each distinct label text is
emitted at most once across all layers and all features: once a name enters
the pass's `used_label_names` set, no later feature (in any layer) emits a
second label with that text. -/
theorem c5_label_dedup (layers : List QgsLayerM) (s : String) :
    (exportLabels layers).count s ≤ 1 := by
  have h := stepOk_processLayers [] layers
  exact List.nodup_iff_count_le_one.mp h.2.2.1 s

/-- C7: constructing the page layout with a paper-size name that is not in
the PAPER_SIZES table yields a layout identical in every computed field to
constructing it with "A4", for any bbox, orientation and margin; the unknown
name never causes a failure. -/
theorem c7_paper_fallback (bbox : ℚ × ℚ × ℚ × ℚ) (orientation : String)
    (marginMm latCorrection : ℚ) (name : String) (h : paperSizes name = none) :
    mkSVGExporter bbox name orientation marginMm latCorrection =
      mkSVGExporter bbox "A4" orientation marginMm latCorrection := by
  have e1 : paperSizes "A4" = some (210, 297) := rfl
  simp only [mkSVGExporter, h, e1, Option.isSome_none, Option.isSome_some,
    Bool.false_eq_true, if_false, if_true, Option.getD_some]

/-- C7, witness: the unknown paper size "Foo" produces the same layout as
"A4". -/
theorem c7_paper_fallback_witness :
    paperSizes "Foo" = none ∧
    mkSVGExporter (0, 0, 1, 1) "Foo" "portrait" 10 1 =
      mkSVGExporter (0, 0, 1, 1) "A4" "portrait" 10 1 :=
  ⟨by decide, c7_paper_fallback (0, 0, 1, 1) "portrait" 10 1 "Foo" (by decide)⟩

/-- C8: `create_frame_geometry` succeeds exactly on bboxes with
south < north and west < east; otherwise it raises the validation error
instead of returning a geometry. -/
theorem c8_bbox_validation :
    ∀ (south west north east : ℚ) (orientation : String) (latCorrection : ℚ),
      (createFrameGeometry (south, west, north, east) orientation latCorrection).isOk = true ↔
        (south < north ∧ west < east) := by
  intro s w n e o c
  unfold createFrameGeometry
  by_cases h : s ≥ n ∨ w ≥ e
  · rw [if_pos h]
    simp only [Except.isOk, Except.toBool, Bool.false_eq_true, false_iff]
    rintro ⟨hlt1, hlt2⟩
    rcases h with h | h
    · exact absurd hlt1 (not_lt.mpr h)
    · exact absurd hlt2 (not_lt.mpr h)
  · rw [if_neg h]
    push_neg at h
    simp only [Except.isOk, Except.toBool]
    exact iff_of_true trivial ⟨h.1, h.2⟩

lemma createFrameGeometry_ok (south west north east : ℚ) (o : String) (c : ℚ)
    (h1 : south < north) (h2 : west < east) :
    createFrameGeometry (south, west, north, east) o c = .ok
      [((west + east) / 2 - frameWidthDegOf o c / 2,
        (north + south) / 2 - frameHeightDegOf o / 2),
       ((west + east) / 2 + frameWidthDegOf o c / 2,
        (north + south) / 2 - frameHeightDegOf o / 2),
       ((west + east) / 2 + frameWidthDegOf o c / 2,
        (north + south) / 2 + frameHeightDegOf o / 2),
       ((west + east) / 2 - frameWidthDegOf o c / 2,
        (north + south) / 2 + frameHeightDegOf o / 2),
       ((west + east) / 2 - frameWidthDegOf o c / 2,
        (north + south) / 2 - frameHeightDegOf o / 2)] := by
  unfold createFrameGeometry
  rw [if_neg (by push_neg; exact ⟨h1, h2⟩)]
  rfl

/-- C4: for any valid bbox and either orientation, the frame ring has
exactly 5 points with point 0 equal to point 4, and the ring's bounding box
is centered (within 1e-9, in fact exactly) on the arithmetic midpoint of the
input bbox. -/
theorem c4_frame_ring (south west north east : ℚ) (orientation : String)
    (latCorrection : ℚ) (h1 : south < north) (h2 : west < east) :
    ∃ pts, createFrameGeometry (south, west, north, east) orientation latCorrection = .ok pts ∧
      pts.length = 5 ∧ pts.getD 0 (0, 0) = pts.getD 4 (0, 0) ∧
      |((ringBBox pts).south + (ringBBox pts).north) / 2 - (south + north) / 2| ≤
        1 / 1000000000 ∧
      |((ringBBox pts).west + (ringBBox pts).east) / 2 - (west + east) / 2| ≤
        1 / 1000000000 := by
  refine ⟨_, createFrameGeometry_ok south west north east orientation latCorrection h1 h2,
    rfl, rfl, ?_, ?_⟩
  · have hdpos : (0 : ℚ) ≤ frameHeightDegOf orientation := by
      unfold frameHeightDegOf
      split <;> norm_num
    have hSN : (north + south) / 2 - frameHeightDegOf orientation / 2 ≤
        (north + south) / 2 + frameHeightDegOf orientation / 2 := by linarith
    simp only [ringBBox, List.foldl_cons, List.foldl_nil, min_self, max_self,
      min_eq_left hSN, max_eq_right hSN, max_eq_left hSN]
    have e0 : ((north + south) / 2 - frameHeightDegOf orientation / 2 +
        ((north + south) / 2 + frameHeightDegOf orientation / 2)) / 2 - (south + north) / 2 =
          0 := by ring
    rw [e0, abs_zero]
    norm_num
  · rcases le_total ((west + east) / 2 - frameWidthDegOf orientation latCorrection / 2)
      ((west + east) / 2 + frameWidthDegOf orientation latCorrection / 2) with hWE | hWE
    · simp only [ringBBox, List.foldl_cons, List.foldl_nil, min_self, max_self,
        min_eq_left hWE, max_eq_right hWE, max_eq_left hWE]
      have e0 : ((west + east) / 2 - frameWidthDegOf orientation latCorrection / 2 +
          ((west + east) / 2 + frameWidthDegOf orientation latCorrection / 2)) / 2 -
            (west + east) / 2 = 0 := by ring
      rw [e0, abs_zero]
      norm_num
    · simp only [ringBBox, List.foldl_cons, List.foldl_nil, min_self, max_self,
        min_eq_right hWE, min_eq_left hWE, max_eq_left hWE, max_eq_right hWE]
      have e0 : ((west + east) / 2 + frameWidthDegOf orientation latCorrection / 2 +
          ((west + east) / 2 - frameWidthDegOf orientation latCorrection / 2)) / 2 -
            (west + east) / 2 = 0 := by ring
      rw [e0, abs_zero]
      norm_num

/-- C4, witness: the frame for bbox (0, 0, 2, 1) in portrait orientation. -/
theorem c4_frame_ring_witness :
    (0 : ℚ) < 2 ∧ (0 : ℚ) < 1 ∧
    ∃ pts, createFrameGeometry (0, 0, 2, 1) "portrait" 1 = .ok pts ∧
      pts.length = 5 ∧ pts.getD 0 (0, 0) = pts.getD 4 (0, 0) ∧
      |((ringBBox pts).south + (ringBBox pts).north) / 2 - ((0 : ℚ) + 2) / 2| ≤
        1 / 1000000000 ∧
      |((ringBBox pts).west + (ringBBox pts).east) / 2 - ((0 : ℚ) + 1) / 2| ≤
        1 / 1000000000 :=
  ⟨by decide, by decide, c4_frame_ring 0 0 2 1 "portrait" 1 (by decide) (by decide)⟩

/-- C3: evaluation of the projector at a failing input.  For the bbox
(south -1, west 0, north 1, east 1) — whose average latitude is 0, so the
latitude-correction factor is exactly cos 0 = 1 — on portrait A4 with a
10 mm margin, the east corners of the bbox project to an x coordinate
strictly beyond `margin_px + draw_width`: the corner falls outside the
content area, contradicting the claim. -/
theorem c3_corner_overflow :
    (mkSVGExporter ((-1 : ℚ), 0, 1, 1) "A4" "portrait" 10 1).marginPx +
        (mkSVGExporter ((-1 : ℚ), 0, 1, 1) "A4" "portrait" 10 1).drawWidth <
      lonToX (mkSVGExporter ((-1 : ℚ), 0, 1, 1) "A4" "portrait" 10 1) 1 := by
  have h1 : (("portrait" : String) = "landscape") = False := by simp
  norm_num [mkSVGExporter, lonToX, paperSizes, mmToPx, h1]
